import Mathlib

/-!
# Verification of the hardware-offboarding automation pipeline

A shallow embedding of `hardware-offboarding-automation.py` and proofs of the
specification's claims about it.  Strings are modelled as `List Char`
(written via `String.toList` for literals); Python exceptions are modelled
with `Except`/`Bool` oracles; the filesystem is modelled as an association
list from paths to file contents (a file content is a list of rows of cells).
-/

set_option autoImplicit false

namespace Offboarding

/-- Strings of the Python program, modelled as lists of characters. -/
abbrev Str := List Char

/-! ## String helpers (Python built-ins used by the program) -/

/-- Python `str.strip()`: remove leading and trailing whitespace. -/
def pyStrip (s : Str) : Str :=
  ((s.dropWhile Char.isWhitespace).reverse.dropWhile Char.isWhitespace).reverse

/-- Python `str.split(sep)` for a one-character separator `sep`:
`"a;;b".split(";") = ["a","","b"]` and `"".split(";") = [""]`.
The result is always non-empty. -/
def pySplit (sep : Char) : Str → List Str
  | [] => [[]]
  | c :: rest =>
    if c = sep then [] :: pySplit sep rest
    else
      match pySplit sep rest with
      | [] => [[c]]
      | t :: ts => (c :: t) :: ts

/-- Python `str.lower()` (ASCII case folding, which is all the program needs). -/
def pyLower (s : Str) : Str := s.map Char.toLower

/-- Python `str.replace(" ", "")`: remove every space character. -/
def removeSpaces (s : Str) : Str := s.filter (fun c => c ≠ ' ')

/-- Python `str.replace(" ", "_")`: turn every space into an underscore. -/
def spacesToUnderscores (s : Str) : Str :=
  s.map (fun c => if c = ' ' then '_' else c)

/-! ## `_split_emails` (source lines 55-69) -/

/-- Embedding of `_split_emails(raw)`:
splits a raw CC string on `';'` if present, else on `','`, else treats the
whole stripped string as a single address; empty entries are dropped.
`if not raw` is Python's emptiness test on strings. -/
def split_emails (raw : Str) : List Str :=
  if raw = [] then []
  else
    let parts : List Str :=
      if raw.contains ';' then (pySplit ';' raw).map pyStrip
      else if raw.contains ',' then (pySplit ',' raw).map pyStrip
      else []
    let parts := if parts = [] then [pyStrip raw] else parts
    parts.filter (fun p => p ≠ [])

/-- The CC-splitting rule as the specification words it: split on `';'` when
present, else on `','` when present, else the whole trimmed string is a single
address; empty resulting tokens are dropped. -/
def split_emails_spec (raw : Str) : List Str :=
  (if raw.contains ';' then (pySplit ';' raw).map pyStrip
   else if raw.contains ',' then (pySplit ',' raw).map pyStrip
   else [pyStrip raw]).filter (fun p => p ≠ [])

/-! ## `build_recipient_email` (source lines 113-118) -/

/-- Embedding of `build_recipient_email(given, sur, domain)`:
`f"{given}.{sur}".lower().replace(" ", "")` followed by `@domain`. -/
def build_recipient_email (given sur domain : Str) : Str :=
  removeSpaces (pyLower (given ++ '.' :: sur)) ++ '@' :: domain

/-- The configured recipient domain (source line 46). -/
def RECIPIENT_DOMAIN : Str := "example.com".toList

/-! ## `read_employees` (source lines 72-110) -/

/-- The accepted CC header names, in the priority order of source line 91. -/
def cc_candidates : List Str :=
  ["Email".toList, "EmailAddress".toList, "CC".toList, "Cc".toList]

/-- The two `ValueError`s raised by `read_employees` (lines 88 and 94). -/
inductive SchemaError
  | missingNameColumn
  | missingCCColumn
deriving DecidableEq

/-- Python `(row.get(k) or "")`: the value bound to key `k` in a `csv.DictReader`
row (modelled as an association list), the empty string when absent. -/
def rowGet (row : List (Str × Str)) (k : Str) : Str :=
  ((row.find? (fun p => p.1 = k)).map Prod.snd).getD []

/-- Header validation of `read_employees` (lines 82-97): `fieldnames` is the
set of stripped header labels; the exact labels `Surname` and `GivenName` are
required, and the CC column is the first of `cc_candidates` present. -/
def checkHeader (header : List Str) : Except SchemaError Str :=
  let fieldnames := header.map pyStrip
  if "Surname".toList ∈ fieldnames ∧ "GivenName".toList ∈ fieldnames then
    match cc_candidates.find? (fun c => fieldnames.contains c) with
    | some c => .ok c
    | none => .error .missingCCColumn
  else .error .missingNameColumn

/-- One iteration of the row loop of `read_employees` (lines 99-108): strip
the two name fields and the CC field, skip the row when either name is empty
after stripping, else split the CC string. -/
def processRow (cc_col : Str) (row : List (Str × Str)) : Option (Str × Str × List Str) :=
  let sur := pyStrip (rowGet row "Surname".toList)
  let given := pyStrip (rowGet row "GivenName".toList)
  let raw_cc := pyStrip (rowGet row cc_col)
  if given = [] ∨ sur = [] then none
  else some (given, sur, split_emails raw_cc)

/-- Embedding of `read_employees`: header check, then row processing in input
order. -/
def read_employees (header : List Str) (rows : List (List (Str × Str))) :
    Except SchemaError (List (Str × Str × List Str)) :=
  match checkHeader header with
  | .error e => .error e
  | .ok cc_col => .ok (rows.filterMap (processRow cc_col))

/-- Does a loader result carry a schema error? -/
def isSchemaError {α : Type} (r : Except SchemaError α) : Bool :=
  match r with
  | .error _ => true
  | .ok _ => false

/-- Case-insensitive label equality, as the claim's wording demands for the
mandatory name columns. -/
def eqCI (a b : Str) : Bool := pyLower a = pyLower b

/-- The claim's schema-error condition, as worded: the (stripped) header has
no case-insensitive match for `Surname` or for `GivenName`, or contains none
of the accepted CC header names. -/
def claimSchemaErrorCondition (header : List Str) : Bool :=
  let fieldnames := header.map pyStrip
  !(fieldnames.any (fun h => eqCI h "Surname".toList))
    || !(fieldnames.any (fun h => eqCI h "GivenName".toList))
    || cc_candidates.all (fun c => !(fieldnames.contains c))

/-! ## `write_employee_csv` (lines 121-135) and `convert_csv_to_xlsx` (lines 138-160) -/

/-- A database cell as handed to the writers: `None` or a string value. -/
abbrev Cell := Option Str

/-- Serialization of one row by `csv.writer`: `"" if v is None else v`. -/
def serializeRow (r : List Cell) : List Str := r.map (fun v => v.getD [])

/-- Content of the per-employee CSV written by `write_employee_csv`: the
header row followed by the serialized data rows. -/
def write_employee_csv_content (col_names : List Str) (rows : List (List Cell)) :
    List (List Str) :=
  col_names :: rows.map serializeRow

/-- Embedding of `f"{given}_{sur}".replace(" ", "_")` (line 126). -/
def safe_name (given sur : Str) : Str := spacesToUnderscores (given ++ '_' :: sur)

/-- Embedding of `os.path.join(OUTPUT_DIR, f"hardware_{safe_name}.csv")` (line 127). -/
def employee_csv_path (given sur : Str) : Str :=
  "out/hardware_".toList ++ safe_name given sur ++ ".csv".toList

/-- The `.xlsx` path derived by `convert_csv_to_xlsx` (line 142). -/
def employee_xlsx_path (given sur : Str) : Str :=
  "out/hardware_".toList ++ safe_name given sur ++ ".xlsx".toList

/-- A cell after `pd.read_csv`'s default type inference.  The model covers
the fragment the program's data exercises: an empty cell becomes `NaN`, a
decimal-integer literal becomes an integer, anything else stays a string.
(Real pandas infers more — floats, booleans, NA markers — so theorems below
quantify only over inputs on which this fragment is the whole story, or state
concrete instances.) -/
inductive PCell
  | pInt (n : Int)
  | pStr (s : Str)
  | pNaN
deriving DecidableEq

/-- Is `s` a decimal integer literal (optional leading minus sign)? -/
def isIntLit (s : Str) : Bool :=
  match s with
  | '-' :: rest => rest ≠ [] && rest.all Char.isDigit
  | _ => s ≠ [] && s.all Char.isDigit

/-- Numeric value of a digit string. -/
def digitsToNat (s : Str) : Nat := s.foldl (fun a c => a * 10 + (c.toNat - 48)) 0

/-- Integer value of a decimal integer literal. -/
def parseIntLit (s : Str) : Int :=
  match s with
  | '-' :: rest => -(digitsToNat rest : Int)
  | _ => (digitsToNat s : Int)

/-- Embedding of the `pd.read_csv` type inference applied to one cell. -/
def inferCell (s : Str) : PCell :=
  if s = [] then .pNaN
  else if isIntLit s then .pInt (parseIntLit s)
  else .pStr s

/-- Python `str(...)` of a cell read back from the workbook. -/
def pcellToStr : PCell → Str
  | .pInt n => (toString n).toList
  | .pStr s => s
  | .pNaN => []

/-- Embedding of `pd.read_csv` on written CSV content (header row, then data rows)
followed by `df.to_excel`: the workbook holds the column labels as its first
row and the inferred cells below.  The model takes the column labels as-is;
real pandas mangles duplicate labels and auto-names empty ones, so theorems
relying on the label row assume distinct non-empty labels. -/
def csv_to_xlsx_content (csv : List (List Str)) : List (List PCell) :=
  match csv with
  | [] => []
  | header :: data => header.map PCell.pStr :: data.map (fun r => r.map inferCell)

/-- The round trip of `write_employee_csv` then `convert_csv_to_xlsx`, with
the workbook read back as strings. -/
def roundTrip (col_names : List Str) (rows : List (List Cell)) : List (List Str) :=
  (csv_to_xlsx_content (write_employee_csv_content col_names rows)).map
    (fun r => r.map pcellToStr)

/-! ## `append_to_combined_csv` (lines 163-182) -/

/-- Embedding of `append_to_combined_csv`.  The combined file is modelled by
its content (`none` = file absent); the result is the new file content and
the row count the Python function returns.  Mode `"w"` truncates; mode `"a"`
appends, creating the file when absent. -/
def append_to_combined_csv (col_names : List Str) (rows : List (List Cell))
    (file : Option (List (List Str))) (first_write : Bool) :
    Option (List (List Str)) × Nat :=
  if rows = [] then
    if first_write then (some [col_names], 0) else (file, 0)
  else
    let base : List (List Str) := if first_write then [] else file.getD []
    let withHeader := if first_write then base ++ [col_names] else base
    (some (withHeader ++ rows.map serializeRow), rows.length)

/-! ## `build_html_table` (lines 185-213) -/

/-- Embedding of `esc` inside `build_html_table`: `"" if x is None else str(x)` then
`.replace("&","&amp;").replace("<","&lt;").replace(">","&gt;")` — the
sequential replaces act as a single character expansion, because the
ampersands introduced for `<` and `>` are produced after the `&` pass. -/
def escHtml (v : Cell) : Str :=
  (v.getD []).flatMap (fun c =>
    if c = '&' then "&amp;".toList
    else if c = '<' then "&lt;".toList
    else if c = '>' then "&gt;".toList
    else [c])

/-- Embedding of `build_html_table`. -/
def build_html_table (col_names : List Str) (rows : List (List Cell)) : Str :=
  let thead := col_names.flatMap (fun c =>
    "<th style=\"background:#f2f2f2; padding:6px; border:1px solid #ccc; text-align:left;\">".toList
      ++ escHtml (some c) ++ "</th>".toList)
  let tbody := rows.flatMap (fun r =>
    "<tr>".toList
      ++ r.flatMap (fun v =>
          "<td style=\"padding:6px; border:1px solid #ccc;\">".toList ++ escHtml v ++ "</td>".toList)
      ++ "</tr>".toList)
  "<table style=\"border-collapse:collapse; width:100%;\">".toList
    ++ "<thead><tr>".toList ++ thead ++ "</tr></thead>".toList
    ++ "<tbody>".toList ++ tbody ++ "</tbody>".toList
    ++ "</table>".toList

/-! ## `send_email_with_attachment` (lines 216-254) -/

/-- Observable events of a run: resource acquisition and release, the
hand-off to `sendmail`, and the two per-employee log lines of `main`. -/
inductive Ev
  | dbAcquire
  | dbRelease
  | smtpAcquire
  | smtpRelease
  | sendmailCalled (recipient : Str)
  | sentOk (recipient : Str)
  | sendFailLogged (recipient : Str)
deriving DecidableEq

/-- Embedding of `try: server.ehlo() except Exception: pass` — every outcome becomes
success. -/
def tryIgnore : Except Unit Unit → Except Unit Unit
  | .ok _ => .ok ()
  | .error _ => .ok ()

/-- Embedding of `send_email_with_attachment`.  Message assembly is pure and
cannot fail; the transport is modelled by three failure oracles: the
`smtplib.SMTP` constructor (which connects), `server.ehlo()`, and
`server.sendmail`.  Returns the emitted events and the outcome; the `with`
block releases the connection on both the normal and the raising path. -/
def send_email_with_attachment (to_email : Str)
    (connectFails ehloFails sendmailFails : Bool) :
    List Ev × Except Unit Unit :=
  if connectFails then ([], .error ())
  else
    match tryIgnore (if ehloFails then .error () else .ok ()) with
    | .error e => ([Ev.smtpAcquire, Ev.smtpRelease], .error e)
    | .ok _ =>
      ([Ev.smtpAcquire, Ev.sendmailCalled to_email, Ev.smtpRelease],
        if sendmailFails then .error () else .ok ())

/-! ## `main` (lines 258-384) -/

/-- The write inside one employee's loop body at which the filesystem-error
oracle fires. -/
inductive WriteStage
  | empCsvWrite
  | xlsxConvert
  | combinedAppend
deriving DecidableEq

/-- One employee of the batch together with the external-world oracles for
that employee: the query result (columns and rows) and the failure switches
for the filesystem writes and the SMTP transport. -/
structure Job where
  given : Str
  sur : Str
  ccEmails : List Str
  col_names : List Str
  rows : List (List Cell)
  fsError : Option WriteStage
  connectFails : Bool
  ehloFails : Bool
  sendmailFails : Bool
deriving DecidableEq

/-- The two e-mail body templates of `main` (lines 321-365), abstracted to
the template identity and the values interpolated into it. -/
inductive EmailBody
  | returnEquipment (given sur : Str) (tableHtml : Str)
  | nothingFound (given sur : Str)
deriving DecidableEq

/-- Per-employee outcome visible after one loop iteration. -/
structure EmpResult where
  recipient : Str
  body : EmailBody
  tableHtml : Str
  written : Nat
  sent : Bool
deriving DecidableEq

/-- The filesystem as the run sees it: per-employee CSV and XLSX files (newest
write first — a lookup finds the latest content) and the combined audit file. -/
structure FS where
  csvFiles : List (Str × List (List Str))
  xlsxFiles : List (Str × List (List PCell))
  combined : Option (List (List Str))
deriving DecidableEq

/-- Embedding of `open(path, "w")`: (over)write a file. -/
def fsWrite {α : Type} (m : List (Str × α)) (k : Str) (v : α) : List (Str × α) :=
  (k, v) :: m

/-- Content of a file, newest write first. -/
def lookupFile {α : Type} (m : List (Str × α)) (k : Str) : Option α :=
  (m.find? (fun p => p.1 = k)).map Prod.snd

/-- Result of one iteration of the per-employee loop. -/
structure StepOut where
  fs : FS
  first_write : Bool
  written : Nat
  events : List Ev
  result : Option EmpResult
deriving DecidableEq

/-- One iteration of `main`'s per-employee loop (lines 298-376): write the
per-employee CSV, convert it to XLSX, append to the combined CSV — each write
raising an uncaught exception when its oracle fires (`result := none`) — then
build the HTML table, pick the body template, and attempt the send inside the
`try/except` of lines 368-376, which logs the failure and continues. -/
def processEmployee (fs : FS) (first_write : Bool) (job : Job) : StepOut :=
  if job.fsError = some WriteStage.empCsvWrite then
    { fs := fs, first_write := first_write, written := 0, events := [], result := none }
  else
    let csvContent := write_employee_csv_content job.col_names job.rows
    let fs1 : FS := { fs with
      csvFiles := fsWrite fs.csvFiles (employee_csv_path job.given job.sur) csvContent }
    if job.fsError = some WriteStage.xlsxConvert then
      { fs := fs1, first_write := first_write, written := 0, events := [], result := none }
    else
      let fs2 : FS := { fs1 with
        xlsxFiles := fsWrite fs1.xlsxFiles (employee_xlsx_path job.given job.sur)
          (csv_to_xlsx_content csvContent) }
      if job.fsError = some WriteStage.combinedAppend then
        { fs := fs2, first_write := first_write, written := 0, events := [], result := none }
      else
        let ac := append_to_combined_csv job.col_names job.rows fs2.combined first_write
        let fs3 : FS := { fs2 with combined := ac.1 }
        let first_write2 := if ac.2 > 0 ∧ first_write then false else first_write
        let table_html := if job.rows = [] then [] else build_html_table job.col_names job.rows
        let to_email := build_recipient_email job.given job.sur RECIPIENT_DOMAIN
        let body := if job.rows = [] then EmailBody.nothingFound job.given job.sur
          else EmailBody.returnEquipment job.given job.sur table_html
        let send := send_email_with_attachment to_email job.connectFails job.ehloFails job.sendmailFails
        match send.2 with
        | .ok _ =>
          { fs := fs3, first_write := first_write2, written := ac.2,
            events := send.1 ++ [Ev.sentOk to_email],
            result := some { recipient := to_email, body := body, tableHtml := table_html,
                             written := ac.2, sent := true } }
        | .error _ =>
          { fs := fs3, first_write := first_write2, written := ac.2,
            events := send.1 ++ [Ev.sendFailLogged to_email],
            result := some { recipient := to_email, body := body, tableHtml := table_html,
                             written := ac.2, sent := false } }

/-- Result of the per-employee loop. -/
structure LoopOut where
  events : List Ev
  fs : FS
  total : Nat
  results : List EmpResult
  aborted : Bool
deriving DecidableEq

/-- The per-employee loop of `main`: sequential, stopping at the first
uncaught (filesystem) exception, which unwinds out of the loop. -/
def runLoop (fs : FS) (first_write : Bool) : List Job → LoopOut
  | [] => { events := [], fs := fs, total := 0, results := [], aborted := false }
  | j :: rest =>
    let s := processEmployee fs first_write j
    match s.result with
    | none => { events := s.events, fs := s.fs, total := 0, results := [], aborted := true }
    | some r =>
      let out := runLoop s.fs s.first_write rest
      { events := s.events ++ out.events, fs := out.fs, total := s.written + out.total,
        results := r :: out.results, aborted := out.aborted }

/-- Full outcome of a run of `main`. -/
structure RunOutcome where
  events : List Ev
  fs : FS
  total_written : Nat
  results : List EmpResult
  aborted : Bool
deriving DecidableEq

/-- Embedding of `main`: with the employee list already loaded into jobs, an
empty list returns before any connection is made; otherwise the previous
combined file is deleted (the run starts with no combined file), the database
connection is acquired once, the loop runs inside `try`, and the `finally`
block closes the connection on both the normal and the exceptional path. -/
def runMain (jobs : List Job) : RunOutcome :=
  if jobs = [] then
    { events := [], fs := { csvFiles := [], xlsxFiles := [], combined := none },
      total_written := 0, results := [], aborted := false }
  else
    let out := runLoop { csvFiles := [], xlsxFiles := [], combined := none } true jobs
    { events := Ev.dbAcquire :: out.events ++ [Ev.dbRelease], fs := out.fs,
      total_written := out.total, results := out.results, aborted := out.aborted }

/-- The serialized data rows a list of employees contributes to the combined
audit file, in batch order. -/
def flatRows : List Job → List (List Str)
  | [] => []
  | j :: rest => j.rows.map serializeRow ++ flatRows rest

/-! ## Concrete jobs used for counterexamples and witnesses -/

/-- An employee with no asset rows and no failing oracle. -/
def jobOkZero : Job :=
  { given := "E1".toList, sur := "S".toList, ccEmails := [],
    col_names := ["A".toList], rows := [], fsError := none,
    connectFails := false, ehloFails := false, sendmailFails := false }

/-- An employee with one asset row and no failing oracle. -/
def jobOkOneRow : Job :=
  { jobOkZero with given := "E2".toList, rows := [[some "x".toList]] }

/-- An employee whose per-employee CSV write raises a filesystem error. -/
def jobFsFail : Job :=
  { jobOkZero with given := "E0".toList, fsError := some WriteStage.empCsvWrite }

/-- An employee whose `sendmail` call raises a transport error. -/
def jobSendFail : Job :=
  { jobOkZero with given := "E3".toList, rows := [[some "y".toList]], sendmailFails := true }

end Offboarding

namespace Offboarding

/-! ## Basic lemmas -/

theorem pySplit_ne_nil (sep : Char) (s : Str) : pySplit sep s ≠ [] := by
  induction s with
  | nil => simp [pySplit]
  | cons c rest ih =>
    simp only [pySplit]
    split
    · simp
    · cases h : pySplit sep rest with
      | nil => simp
      | cons t ts => simp

theorem toLower_eq_space_iff (c : Char) : Char.toLower c = ' ' ↔ c = ' ' := by
  constructor
  · intro h
    simp only [Char.toLower] at h
    by_cases hrange : c.toNat ≥ 65 ∧ c.toNat ≤ 90
    · exfalso
      rw [if_pos hrange] at h
      obtain ⟨h1, h2⟩ := hrange
      generalize c.toNat = n at h h1 h2
      interval_cases n <;> exact absurd h (by decide)
    · rw [if_neg hrange] at h
      exact h
  · intro h
    subst h
    rfl

theorem removeSpaces_pyLower (s : Str) :
    removeSpaces (pyLower s) = pyLower (removeSpaces s) := by
  unfold removeSpaces pyLower
  have hp : ((fun c => decide (c ≠ ' ')) ∘ Char.toLower) = (fun c : Char => decide (c ≠ ' ')) := by
    funext c
    simp only [Function.comp_apply]
    by_cases hc : c = ' '
    · subst hc
      rfl
    · have hlc : Char.toLower c ≠ ' ' := fun h => hc ((toLower_eq_space_iff c).mp h)
      simp [hc, hlc]
  rw [List.filter_map, hp]

theorem split_emails_eq_spec (raw : Str) : split_emails raw = split_emails_spec raw := by
  by_cases h0 : raw = []
  · subst h0
    rfl
  · by_cases h1 : ';' ∈ raw
    · have hne : (pySplit ';' raw).map pyStrip ≠ [] := by
        intro h
        exact pySplit_ne_nil ';' raw (List.map_eq_nil_iff.mp h)
      simp [split_emails, split_emails_spec, h0, h1, hne]
    · by_cases h2 : ',' ∈ raw
      · have hne : (pySplit ',' raw).map pyStrip ≠ [] := by
          intro h
          exact pySplit_ne_nil ',' raw (List.map_eq_nil_iff.mp h)
        simp [split_emails, split_emails_spec, h0, h1, h2, hne]
      · simp [split_emails, split_emails_spec, h0, h1, h2]

/-- C7: the CC splitter splits on `';'` when present, else on `','` when
present, else treats the whole trimmed string as a single address, and drops
empty tokens; with the four concrete examples from the specification. -/
theorem claim_C7_cc_splitting :
    (∀ raw : Str, split_emails raw = split_emails_spec raw)
    ∧ split_emails "a@x.com;b@x.com".toList = ["a@x.com".toList, "b@x.com".toList]
    ∧ split_emails "a@x.com, b@x.com".toList = ["a@x.com".toList, "b@x.com".toList]
    ∧ split_emails "".toList = []
    ∧ split_emails "a@x.com".toList = ["a@x.com".toList] :=
  ⟨split_emails_eq_spec, by decide, by decide, by decide, by decide⟩

/-- C8: the derived recipient address is the lowercased concatenation
`givenName ++ "." ++ surname` with spaces stripped (in either order — the two
operations commute), followed by `"@" ++ domain`; with the two concrete
examples from the specification. -/
theorem claim_C8_recipient_derivation :
    (∀ given sur domain : Str,
      build_recipient_email given sur domain
        = pyLower (removeSpaces (given ++ '.' :: sur)) ++ '@' :: domain)
    ∧ build_recipient_email "Jane".toList "Doe".toList "example.com".toList
        = "jane.doe@example.com".toList
    ∧ build_recipient_email "Jane Ann".toList "Doe".toList "example.com".toList
        = "janeann.doe@example.com".toList :=
  ⟨fun given sur domain => by
      simp only [build_recipient_email, removeSpaces_pyLower],
   by decide, by decide⟩

/-- C10: when the connection is established, the outcome of
`send_email_with_attachment` is independent of the EHLO oracle — the failure
is swallowed by the bare `except: pass`, the message is still handed to
`sendmail`, and the result is determined by `sendmail` alone; a connection
failure propagates before anything else happens. -/
theorem claim_C10_ehlo_failure_swallowed :
    ∀ (to_email : Str) (ehloFails sendmailFails : Bool),
      send_email_with_attachment to_email false ehloFails sendmailFails
        = ([Ev.smtpAcquire, Ev.sendmailCalled to_email, Ev.smtpRelease],
           if sendmailFails then Except.error () else Except.ok ())
      ∧ send_email_with_attachment to_email true ehloFails sendmailFails
        = ([], Except.error ()) := by
  intro to_email e s
  cases e <;> cases s <;> exact ⟨rfl, rfl⟩

theorem map_pcellToStr_pStr (l : List Str) :
    l.map (pcellToStr ∘ PCell.pStr) = l := by
  induction l with
  | nil => rfl
  | cons a t ih => simp [Function.comp, pcellToStr, ih]

theorem list_contains_iff_mem {α : Type} [BEq α] [LawfulBEq α] {l : List α} {a : α} :
    l.contains a = true ↔ a ∈ l :=
  List.elem_iff

/-- C4 counterexample: writing the single cell `"01"` and round-tripping it
through the spreadsheet conversion yields `"1"` — pandas's default type
inference reads the cell as the integer 1 — so the round trip is not
string-faithful for every row set. -/
theorem claim_C4_counterexample :
    roundTrip ["A".toList] [[some "01".toList]] = [["A".toList], ["1".toList]]
    ∧ roundTrip ["A".toList] [[some "01".toList]] ≠ [["A".toList], ["01".toList]] :=
  ⟨by decide, by decide⟩

/-- C4 (amended): the round trip preserves the column order (stated for the
distinct, non-empty labels on which the embedded pandas model is faithful),
and for the specification's example — columns `["A","B"]`, one row
`("1","2")` — it reproduces exactly those strings; general string-equality of
data cells fails (see the counterexample, where `"01"` comes back `"1"`). -/
theorem claim_C4_roundtrip_amended :
    (∀ (col_names : List Str) (rows : List (List Cell)),
      col_names.Nodup → (∀ c ∈ col_names, c ≠ []) →
      (roundTrip col_names rows).head? = some col_names)
    ∧ roundTrip ["A".toList, "B".toList] [[some "1".toList, some "2".toList]]
        = [["A".toList, "B".toList], ["1".toList, "2".toList]] := by
  constructor
  · intro cols rows _ _
    simp [roundTrip, write_employee_csv_content, csv_to_xlsx_content,
      List.map_map, map_pcellToStr_pStr]
  · decide

theorem claim_C4_roundtrip_amended_witness :
    (roundTrip ["A".toList] []).head? = some ["A".toList] :=
  claim_C4_roundtrip_amended.1 ["A".toList] [] (by decide) (by decide)

/-- C5 counterexample: with header `["surname", "GivenName", "Email"]` the
claim's case-insensitive reading calls for no schema error, yet the loader
raises one — `'surname'` is not an exact match for `'Surname'`; the matching
is only whitespace-trimmed, not case-insensitive. -/
theorem claim_C5_counterexample :
    claimSchemaErrorCondition ["surname".toList, "GivenName".toList, "Email".toList] = false
    ∧ read_employees ["surname".toList, "GivenName".toList, "Email".toList] []
        = Except.error SchemaError.missingNameColumn :=
  ⟨by decide, rfl⟩

/-- C5 (amended): the loader raises a schema error iff the stripped header
labels lack the exact label `Surname` or the exact label `GivenName`, or
contain none of the four accepted CC header names; on success the chosen CC
column is the first present candidate in the fixed priority order `Email`,
`EmailAddress`, `CC`, `Cc`; and row processing is identical whichever
accepted CC header carries the raw CC string. -/
theorem claim_C5_schema_error_amended :
    (∀ (header : List Str) (rows : List (List (Str × Str))),
      isSchemaError (read_employees header rows) = true ↔
        ("Surname".toList ∉ header.map pyStrip
         ∨ "GivenName".toList ∉ header.map pyStrip
         ∨ ∀ c ∈ cc_candidates, c ∉ header.map pyStrip))
    ∧ (∀ (header : List Str) (c : Str), checkHeader header = Except.ok c →
        (c = "Email".toList ∧ "Email".toList ∈ header.map pyStrip)
        ∨ (c = "EmailAddress".toList ∧ "Email".toList ∉ header.map pyStrip
            ∧ "EmailAddress".toList ∈ header.map pyStrip)
        ∨ (c = "CC".toList ∧ "Email".toList ∉ header.map pyStrip
            ∧ "EmailAddress".toList ∉ header.map pyStrip
            ∧ "CC".toList ∈ header.map pyStrip)
        ∨ (c = "Cc".toList ∧ "Email".toList ∉ header.map pyStrip
            ∧ "EmailAddress".toList ∉ header.map pyStrip
            ∧ "CC".toList ∉ header.map pyStrip
            ∧ "Cc".toList ∈ header.map pyStrip))
    ∧ (∀ c1 ∈ cc_candidates, ∀ c2 ∈ cc_candidates, ∀ given sur raw : Str,
        processRow c1 [("Surname".toList, sur), ("GivenName".toList, given), (c1, raw)]
          = processRow c2 [("Surname".toList, sur), ("GivenName".toList, given), (c2, raw)]) := by
  refine ⟨?_, ?_, ?_⟩
  · intro header rows
    by_cases hm : ("Surname".toList ∈ header.map pyStrip ∧ "GivenName".toList ∈ header.map pyStrip)
    · cases hf : (cc_candidates.find? (fun c => (header.map pyStrip).contains c)) with
      | some c =>
        have hmem : c ∈ header.map pyStrip := by
          have h1 := List.find?_some hf
          exact list_contains_iff_mem.mp h1
        have hcand : c ∈ cc_candidates := List.mem_of_find?_eq_some hf
        simp only [read_employees, checkHeader, if_pos hm, hf, isSchemaError]
        constructor
        · intro h
          exact absurd h (by simp)
        · intro h
          rcases h with h | h | h
          · exact absurd hm.1 h
          · exact absurd hm.2 h
          · exact absurd hmem (h c hcand)
      | none =>
        have habs : ∀ c ∈ cc_candidates, c ∉ header.map pyStrip := by
          intro c hc hmem
          have h1 := List.find?_eq_none.mp hf c hc
          exact h1 (list_contains_iff_mem.mpr hmem)
        simp only [read_employees, checkHeader, if_pos hm, hf, isSchemaError]
        constructor
        · intro _
          exact Or.inr (Or.inr habs)
        · intro _
          trivial
    · simp only [read_employees, checkHeader, if_neg hm, isSchemaError]
      rw [not_and_or] at hm
      constructor
      · intro _
        tauto
      · intro _
        trivial
  · intro header c h
    simp only [checkHeader] at h
    by_cases hm : ("Surname".toList ∈ header.map pyStrip ∧ "GivenName".toList ∈ header.map pyStrip)
    · rw [if_pos hm] at h
      simp only [cc_candidates] at h
      by_cases h1 : "Email".toList ∈ header.map pyStrip
      · rw [List.find?_cons_of_pos _ (list_contains_iff_mem.mpr h1)] at h
        cases h
        exact Or.inl ⟨rfl, h1⟩
      · rw [List.find?_cons_of_neg _ (fun hc => h1 (list_contains_iff_mem.mp hc))] at h
        by_cases h2 : "EmailAddress".toList ∈ header.map pyStrip
        · rw [List.find?_cons_of_pos _ (list_contains_iff_mem.mpr h2)] at h
          cases h
          exact Or.inr (Or.inl ⟨rfl, h1, h2⟩)
        · rw [List.find?_cons_of_neg _ (fun hc => h2 (list_contains_iff_mem.mp hc))] at h
          by_cases h3 : "CC".toList ∈ header.map pyStrip
          · rw [List.find?_cons_of_pos _ (list_contains_iff_mem.mpr h3)] at h
            cases h
            exact Or.inr (Or.inr (Or.inl ⟨rfl, h1, h2, h3⟩))
          · rw [List.find?_cons_of_neg _ (fun hc => h3 (list_contains_iff_mem.mp hc))] at h
            by_cases h4 : "Cc".toList ∈ header.map pyStrip
            · rw [List.find?_cons_of_pos _ (list_contains_iff_mem.mpr h4)] at h
              cases h
              exact Or.inr (Or.inr (Or.inr ⟨rfl, h1, h2, h3, h4⟩))
            · rw [List.find?_cons_of_neg _ (fun hc => h4 (list_contains_iff_mem.mp hc))] at h
              simp at h
    · rw [if_neg hm] at h
      cases h
  · intro c1 hc1 c2 hc2 given sur raw
    simp only [cc_candidates, List.mem_cons, List.not_mem_nil, or_false] at hc1 hc2
    rcases hc1 with h | h | h | h <;> subst h <;>
      (rcases hc2 with h | h | h | h <;> subst h <;> rfl)

theorem claim_C5_schema_error_amended_witness :
    "EmailAddress".toList
        ∈ (["Surname".toList, "GivenName".toList, "EmailAddress".toList].map pyStrip)
    ∧ processRow "Email".toList
        [("Surname".toList, "Doe".toList), ("GivenName".toList, "Jane".toList),
         ("Email".toList, "a@x.com".toList)]
      = processRow "Cc".toList
        [("Surname".toList, "Doe".toList), ("GivenName".toList, "Jane".toList),
         ("Cc".toList, "a@x.com".toList)] := by
  constructor
  · have h := claim_C5_schema_error_amended.2.1
      ["Surname".toList, "GivenName".toList, "EmailAddress".toList] "EmailAddress".toList rfl
    rcases h with ⟨h, _⟩ | ⟨_, _, h⟩ | ⟨h, _⟩ | ⟨h, _⟩
    · exact absurd h (by decide)
    · exact h
    · exact absurd h (by decide)
    · exact absurd h (by decide)
  · exact claim_C5_schema_error_amended.2.2 "Email".toList (by decide) "Cc".toList (by decide)
      "Jane".toList "Doe".toList "a@x.com".toList

/-! ## Orchestrator lemmas -/

theorem send_email_eq (to_email : Str) (c e s : Bool) :
    send_email_with_attachment to_email c e s =
      if c then ([], Except.error ())
      else ([Ev.smtpAcquire, Ev.sendmailCalled to_email, Ev.smtpRelease],
            if s then Except.error () else Except.ok ()) := by
  cases c <;> cases e <;> cases s <;> rfl

theorem processEmployee_fsError (fs : FS) (fw : Bool) (j : Job) (h : j.fsError ≠ none) :
    (processEmployee fs fw j).result = none
    ∧ (processEmployee fs fw j).events = []
    ∧ (processEmployee fs fw j).first_write = fw := by
  obtain ⟨st, hst⟩ := Option.ne_none_iff_exists'.mp h
  cases st <;> simp [processEmployee, hst]

theorem processEmployee_ok (fs : FS) (fw : Bool) (j : Job) (h : j.fsError = none) :
    processEmployee fs fw j =
      { fs := { csvFiles := fsWrite fs.csvFiles (employee_csv_path j.given j.sur)
                  (write_employee_csv_content j.col_names j.rows),
                xlsxFiles := fsWrite fs.xlsxFiles (employee_xlsx_path j.given j.sur)
                  (csv_to_xlsx_content (write_employee_csv_content j.col_names j.rows)),
                combined := (append_to_combined_csv j.col_names j.rows fs.combined fw).1 },
        first_write := if (append_to_combined_csv j.col_names j.rows fs.combined fw).2 > 0 ∧ fw
          then false else fw,
        written := (append_to_combined_csv j.col_names j.rows fs.combined fw).2,
        events := (if j.connectFails then []
            else [Ev.smtpAcquire,
                  Ev.sendmailCalled (build_recipient_email j.given j.sur RECIPIENT_DOMAIN),
                  Ev.smtpRelease])
          ++ [if j.connectFails || j.sendmailFails
              then Ev.sendFailLogged (build_recipient_email j.given j.sur RECIPIENT_DOMAIN)
              else Ev.sentOk (build_recipient_email j.given j.sur RECIPIENT_DOMAIN)],
        result := some { recipient := build_recipient_email j.given j.sur RECIPIENT_DOMAIN,
                         body := if j.rows = [] then EmailBody.nothingFound j.given j.sur
                           else EmailBody.returnEquipment j.given j.sur
                             (build_html_table j.col_names j.rows),
                         tableHtml := if j.rows = [] then []
                           else build_html_table j.col_names j.rows,
                         written := (append_to_combined_csv j.col_names j.rows fs.combined fw).2,
                         sent := !(j.connectFails || j.sendmailFails) } } := by
  cases hc : j.connectFails <;> cases hs : j.sendmailFails <;>
    by_cases hr : j.rows = [] <;>
    simp [processEmployee, h, hc, hs, hr, send_email_eq]

theorem runLoop_abort_of_fsError (pre : List Job) (j : Job) (post : List Job) :
    ∀ (fs : FS) (fw : Bool),
      (∀ k ∈ pre, k.fsError = none) → j.fsError ≠ none →
      (runLoop fs fw (pre ++ j :: post)).aborted = true
      ∧ (runLoop fs fw (pre ++ j :: post)).results.length = pre.length := by
  induction pre with
  | nil =>
    intro fs fw _ hj
    have h := processEmployee_fsError fs fw j hj
    simp [runLoop, h.1]
  | cons k rest ih =>
    intro fs fw hpre hj
    have hk : k.fsError = none := hpre k (by simp)
    rw [List.cons_append]
    simp only [runLoop, processEmployee_ok fs fw k hk]
    refine ⟨(ih _ _ (fun x hx => hpre x (by simp [hx])) hj).1, ?_⟩
    simpa using (ih _ _ (fun x hx => hpre x (by simp [hx])) hj).2

/-- C1 counterexample: with a first employee whose per-employee CSV write
raises a filesystem error and a second healthy employee, the run aborts —
the second employee is never processed and no send is attempted; only the
`finally` block closing the database connection runs. -/
theorem claim_C1_counterexample :
    (runMain [jobFsFail, jobOkZero]).aborted = true
    ∧ (runMain [jobFsFail, jobOkZero]).results = []
    ∧ (runMain [jobFsFail, jobOkZero]).events = [Ev.dbAcquire, Ev.dbRelease] := by
  refine ⟨by decide, by decide, by decide⟩

/-- C1 (amended): a filesystem error while writing an employee's report
artifacts is NOT caught at the per-employee boundary: it propagates out of
the loop, aborts the whole run (later employees are never processed), and
only the `finally` block still closes the database connection.  Only the
send step is isolated per employee. -/
theorem claim_C1_fs_error_aborts_run :
    ∀ (pre : List Job) (j : Job) (post : List Job),
      (∀ k ∈ pre, k.fsError = none) → j.fsError ≠ none →
      (runMain (pre ++ j :: post)).aborted = true
      ∧ (runMain (pre ++ j :: post)).results.length = pre.length
      ∧ (runMain (pre ++ j :: post)).events.getLast? = some Ev.dbRelease := by
  intro pre j post hpre hj
  have hne : pre ++ j :: post ≠ [] := by
    intro h
    exact absurd (List.append_eq_nil.mp h).2 (by simp)
  have hloop := runLoop_abort_of_fsError pre j post
    { csvFiles := [], xlsxFiles := [], combined := none } true hpre hj
  simp only [runMain, if_neg hne]
  refine ⟨hloop.1, hloop.2, ?_⟩
  have hassoc : ∀ (l : List Ev), (Ev.dbAcquire :: l ++ [Ev.dbRelease]).getLast? = some Ev.dbRelease := by
    intro l
    rw [show Ev.dbAcquire :: l ++ [Ev.dbRelease] = (Ev.dbAcquire :: l) ++ [Ev.dbRelease] from rfl,
      List.getLast?_concat]
  exact hassoc _

theorem claim_C1_fs_error_aborts_run_witness :
    (runMain ([jobOkZero] ++ jobFsFail :: [])).aborted = true
    ∧ (runMain ([jobOkZero] ++ jobFsFail :: [])).results.length = 1
    ∧ (runMain ([jobOkZero] ++ jobFsFail :: [])).events.getLast? = some Ev.dbRelease := by
  have h := claim_C1_fs_error_aborts_run [jobOkZero] jobFsFail [] (by decide) (by decide)
  simpa using h

/-- C9: an employee whose query returns zero rows gets the distinct
"nothing found" body template, no HTML preview table (the empty string), and
still gets a per-employee CSV file and spreadsheet file holding only the
header row. -/
theorem claim_C9_zero_row_employee :
    ∀ (fs : FS) (fw : Bool) (j : Job), j.fsError = none → j.rows = [] →
      (processEmployee fs fw j).result
        = some { recipient := build_recipient_email j.given j.sur RECIPIENT_DOMAIN,
                 body := EmailBody.nothingFound j.given j.sur,
                 tableHtml := [],
                 written := 0,
                 sent := !(j.connectFails || j.sendmailFails) }
      ∧ lookupFile (processEmployee fs fw j).fs.csvFiles (employee_csv_path j.given j.sur)
          = some [j.col_names]
      ∧ lookupFile (processEmployee fs fw j).fs.xlsxFiles (employee_xlsx_path j.given j.sur)
          = some [j.col_names.map PCell.pStr] := by
  intro fs fw j h hr
  rw [processEmployee_ok fs fw j h]
  refine ⟨?_, ?_, ?_⟩
  · cases fw <;> simp [hr, append_to_combined_csv]
  · simp [hr, lookupFile, fsWrite, write_employee_csv_content, List.find?]
  · simp [hr, lookupFile, fsWrite, write_employee_csv_content, csv_to_xlsx_content, List.find?]

theorem claim_C9_zero_row_employee_witness :
    (processEmployee { csvFiles := [], xlsxFiles := [], combined := none } true jobOkZero).result
        = some { recipient := build_recipient_email jobOkZero.given jobOkZero.sur RECIPIENT_DOMAIN,
                 body := EmailBody.nothingFound jobOkZero.given jobOkZero.sur,
                 tableHtml := [],
                 written := 0,
                 sent := !(jobOkZero.connectFails || jobOkZero.sendmailFails) }
    ∧ lookupFile (processEmployee { csvFiles := [], xlsxFiles := [], combined := none }
          true jobOkZero).fs.csvFiles
        (employee_csv_path jobOkZero.given jobOkZero.sur) = some [jobOkZero.col_names]
    ∧ lookupFile (processEmployee { csvFiles := [], xlsxFiles := [], combined := none }
          true jobOkZero).fs.xlsxFiles
        (employee_xlsx_path jobOkZero.given jobOkZero.sur)
        = some [jobOkZero.col_names.map PCell.pStr] :=
  claim_C9_zero_row_employee _ true jobOkZero (by decide) (by decide)

/-! ## File-preservation lemmas for the loop -/

theorem lookupFile_fsWrite_self {α : Type} (m : List (Str × α)) (k : Str) (v : α) :
    lookupFile (fsWrite m k v) k = some v := by
  simp [lookupFile, fsWrite, List.find?]

theorem lookupFile_fsWrite_isSome {α : Type} (m : List (Str × α)) (k p : Str) (v : α)
    (h : (lookupFile m p).isSome) : (lookupFile (fsWrite m k v) p).isSome := by
  by_cases hp : k = p
  · subst hp
    simp [lookupFile_fsWrite_self]
  · simp only [lookupFile, fsWrite]
    rw [List.find?_cons_of_neg _ (by simp [hp])]
    exact h

theorem runLoop_preserves_files : ∀ (jobs : List Job) (fs : FS) (fw : Bool),
    (∀ j ∈ jobs, j.fsError = none) → ∀ p : Str,
    ((lookupFile fs.csvFiles p).isSome →
      (lookupFile (runLoop fs fw jobs).fs.csvFiles p).isSome)
    ∧ ((lookupFile fs.xlsxFiles p).isSome →
      (lookupFile (runLoop fs fw jobs).fs.xlsxFiles p).isSome) := by
  intro jobs
  induction jobs with
  | nil =>
    intro fs fw _ p
    exact ⟨id, id⟩
  | cons k rest ih =>
    intro fs fw hj p
    have hk : k.fsError = none := hj k (by simp)
    have hrest : ∀ x ∈ rest, x.fsError = none := fun x hx => hj x (by simp [hx])
    simp only [runLoop, processEmployee_ok fs fw k hk]
    constructor
    · intro h
      exact (ih _ _ hrest p).1 (lookupFile_fsWrite_isSome _ _ _ _ h)
    · intro h
      exact (ih _ _ hrest p).2 (lookupFile_fsWrite_isSome _ _ _ _ h)

theorem runLoop_ok_spec : ∀ (jobs : List Job) (fs : FS) (fw : Bool),
    (∀ j ∈ jobs, j.fsError = none) →
    (runLoop fs fw jobs).aborted = false
    ∧ (runLoop fs fw jobs).results.map (fun r => (r.recipient, r.sent))
        = jobs.map (fun j => (build_recipient_email j.given j.sur RECIPIENT_DOMAIN,
                              !(j.connectFails || j.sendmailFails)))
    ∧ (∀ j ∈ jobs, (j.connectFails || j.sendmailFails) = true →
        Ev.sendFailLogged (build_recipient_email j.given j.sur RECIPIENT_DOMAIN)
          ∈ (runLoop fs fw jobs).events)
    ∧ (∀ j ∈ jobs,
        (lookupFile (runLoop fs fw jobs).fs.csvFiles (employee_csv_path j.given j.sur)).isSome
        ∧ (lookupFile (runLoop fs fw jobs).fs.xlsxFiles (employee_xlsx_path j.given j.sur)).isSome) := by
  intro jobs
  induction jobs with
  | nil =>
    intro fs fw _
    refine ⟨rfl, rfl, ?_, ?_⟩ <;> intro j hj <;> cases hj
  | cons k rest ih =>
    intro fs fw hj
    have hk : k.fsError = none := hj k (by simp)
    have hrest : ∀ x ∈ rest, x.fsError = none := fun x hx => hj x (by simp [hx])
    have hmono := runLoop_preserves_files rest
    simp only [runLoop, processEmployee_ok fs fw k hk]
    obtain ⟨hab, hmap, hlog, hfiles⟩ := ih _ _ hrest
    refine ⟨hab, ?_, ?_, ?_⟩
    · rw [List.map_cons, List.map_cons, hmap]
    · intro j hjmem hfail
      rcases List.mem_cons.mp hjmem with rfl | hjr
      · rw [hfail]
        cases hc : j.connectFails <;> simp_all
      · exact List.mem_append_right _ (hlog j hjr hfail)
    · intro j hjmem
      rcases List.mem_cons.mp hjmem with rfl | hjr
      · constructor
        · exact (hmono _ _ hrest _).1 (by simp [lookupFile_fsWrite_self])
        · exact (hmono _ _ hrest _).2 (by simp [lookupFile_fsWrite_self])
      · exact hfiles j hjr

/-- C3: send failures are isolated per employee: with no filesystem error the
run never aborts, every employee's outcome is `(recipient, sent)` with `sent`
false exactly when that employee's transport failed, each failure is logged
with the intended recipient, and every employee's report files are on disk at
the end of the run — including those of the employees whose send failed. -/
theorem claim_C3_send_failure_isolation :
    ∀ (jobs : List Job), (∀ j ∈ jobs, j.fsError = none) →
      (runMain jobs).aborted = false
      ∧ (runMain jobs).results.map (fun r => (r.recipient, r.sent))
          = jobs.map (fun j => (build_recipient_email j.given j.sur RECIPIENT_DOMAIN,
                                !(j.connectFails || j.sendmailFails)))
      ∧ (∀ j ∈ jobs, (j.connectFails || j.sendmailFails) = true →
          Ev.sendFailLogged (build_recipient_email j.given j.sur RECIPIENT_DOMAIN)
            ∈ (runMain jobs).events)
      ∧ (∀ j ∈ jobs,
          (lookupFile (runMain jobs).fs.csvFiles (employee_csv_path j.given j.sur)).isSome
          ∧ (lookupFile (runMain jobs).fs.xlsxFiles (employee_xlsx_path j.given j.sur)).isSome) := by
  intro jobs hj
  by_cases hne : jobs = []
  · subst hne
    refine ⟨rfl, rfl, ?_, ?_⟩ <;> intro j hjmem <;> cases hjmem
  · obtain ⟨hab, hmap, hlog, hfiles⟩ :=
      runLoop_ok_spec jobs { csvFiles := [], xlsxFiles := [], combined := none } true hj
    simp only [runMain, if_neg hne]
    refine ⟨hab, hmap, ?_, hfiles⟩
    intro j hjmem hfail
    exact List.mem_cons_of_mem _ (List.mem_append_left _ (hlog j hjmem hfail))

theorem claim_C3_send_failure_isolation_witness :
    (runMain [jobOkOneRow, jobSendFail, jobOkZero]).aborted = false
    ∧ (runMain [jobOkOneRow, jobSendFail, jobOkZero]).results.map (fun r => (r.recipient, r.sent))
        = [jobOkOneRow, jobSendFail, jobOkZero].map
            (fun j => (build_recipient_email j.given j.sur RECIPIENT_DOMAIN,
                       !(j.connectFails || j.sendmailFails)))
    ∧ Ev.sendFailLogged (build_recipient_email jobSendFail.given jobSendFail.sur RECIPIENT_DOMAIN)
        ∈ (runMain [jobOkOneRow, jobSendFail, jobOkZero]).events
    ∧ (lookupFile (runMain [jobOkOneRow, jobSendFail, jobOkZero]).fs.csvFiles
        (employee_csv_path jobSendFail.given jobSendFail.sur)).isSome := by
  have h := claim_C3_send_failure_isolation [jobOkOneRow, jobSendFail, jobOkZero] (by decide)
  exact ⟨h.1, h.2.1, h.2.2.1 jobSendFail (by decide) (by decide),
    (h.2.2.2 jobSendFail (by decide)).1⟩

/-! ## Combined-audit lemmas -/

theorem runLoop_combined (cols : List Str) : ∀ (jobs : List Job) (fs : FS) (fw : Bool),
    (∀ j ∈ jobs, j.col_names = cols ∧ j.fsError = none) →
    (runLoop fs fw jobs).fs.combined =
      if jobs = [] then fs.combined
      else if fw then some (cols :: flatRows jobs)
      else if flatRows jobs = [] then fs.combined
      else some (fs.combined.getD [] ++ flatRows jobs) := by
  intro jobs
  induction jobs with
  | nil =>
    intro fs fw _
    simp [runLoop]
  | cons k rest ih =>
    intro fs fw hj
    obtain ⟨hcols, hfsn⟩ := hj k (by simp)
    have hrest : ∀ x ∈ rest, x.col_names = cols ∧ x.fsError = none :=
      fun x hx => hj x (by simp [hx])
    simp only [runLoop, processEmployee_ok fs fw k hfsn]
    rw [ih _ _ hrest]
    by_cases hkr : k.rows = []
    · cases fw <;>
        by_cases h0 : rest = [] <;>
        by_cases h1 : flatRows rest = [] <;>
        simp [append_to_combined_csv, flatRows, hcols, hkr, h0, h1]
    · have hser : k.rows.map serializeRow ≠ [] := by
        intro h
        exact hkr (List.map_eq_nil_iff.mp h)
      have hlen : 0 < k.rows.length := List.length_pos.mpr hkr
      cases fw <;>
        by_cases h0 : rest = [] <;>
        by_cases h1 : flatRows rest = [] <;>
        simp [append_to_combined_csv, flatRows, hcols, hkr, h0, h1, hser, hlen]

/-- C2: over a whole run with a common column schema, the combined audit file
ends up as exactly one header row followed by the rows of all employees in
batch order — a zero-row employee does not consume the first-contribution
flag; and in the concrete three-employee run where only the second employee
has a row, the final file is exactly the header followed by that row. -/
theorem claim_C2_combined_single_header :
    (∀ (cols : List Str) (jobs : List Job), jobs ≠ [] →
      (∀ j ∈ jobs, j.col_names = cols ∧ j.fsError = none) →
      (runMain jobs).fs.combined = some (cols :: flatRows jobs))
    ∧ (runMain [jobOkZero, jobOkOneRow, { jobOkZero with given := "E4".toList }]).fs.combined
        = some [["A".toList], ["x".toList]] := by
  constructor
  · intro cols jobs hne hj
    simp only [runMain, if_neg hne]
    rw [runLoop_combined cols jobs _ true hj]
    simp [hne]
  · decide

theorem claim_C2_combined_single_header_witness :
    (runMain [jobOkOneRow]).fs.combined = some (["A".toList] :: flatRows [jobOkOneRow]) :=
  claim_C2_combined_single_header.1 ["A".toList] [jobOkOneRow] (by decide) (by decide)

/-! ## Resource-event lemmas -/

theorem runLoop_no_db_events : ∀ (jobs : List Job) (fs : FS) (fw : Bool),
    Ev.dbAcquire ∉ (runLoop fs fw jobs).events ∧ Ev.dbRelease ∉ (runLoop fs fw jobs).events := by
  intro jobs
  induction jobs with
  | nil =>
    intro fs fw
    simp [runLoop]
  | cons k rest ih =>
    intro fs fw
    by_cases hk : k.fsError = none
    · simp only [runLoop, processEmployee_ok fs fw k hk]
      constructor
      · intro hmem
        rcases List.mem_append.mp hmem with h1 | h1
        · rcases List.mem_append.mp h1 with h2 | h2
          · cases hc : k.connectFails <;> simp [hc] at h2
          · cases hcs : (k.connectFails || k.sendmailFails) <;> simp [hcs] at h2
        · exact (ih _ _).1 h1
      · intro hmem
        rcases List.mem_append.mp hmem with h1 | h1
        · rcases List.mem_append.mp h1 with h2 | h2
          · cases hc : k.connectFails <;> simp [hc] at h2
          · cases hcs : (k.connectFails || k.sendmailFails) <;> simp [hcs] at h2
        · exact (ih _ _).2 h1
    · have h := processEmployee_fsError fs fw k hk
      simp [runLoop, h.1, h.2.1]

theorem runLoop_smtp_balance : ∀ (jobs : List Job) (fs : FS) (fw : Bool),
    ((runLoop fs fw jobs).events.count Ev.smtpAcquire)
      = ((runLoop fs fw jobs).events.count Ev.smtpRelease) := by
  intro jobs
  induction jobs with
  | nil =>
    intro fs fw
    simp [runLoop]
  | cons k rest ih =>
    intro fs fw
    by_cases hk : k.fsError = none
    · simp only [runLoop, processEmployee_ok fs fw k hk]
      cases hc : k.connectFails <;> cases hs : k.sendmailFails <;>
        simp [List.count_append, List.count_cons, ih]
    · have h := processEmployee_fsError fs fw k hk
      simp [runLoop, h.1, h.2.1]

/-- C6 counterexample: in a run of two healthy employees the mail-transport
connection is acquired twice — once per send — not once for the whole run as
the claim states. -/
theorem claim_C6_counterexample :
    (runMain [jobOkZero, jobOkOneRow]).events.count Ev.smtpAcquire = 2 := by
  decide

/-- C6 (amended): the database connection is acquired exactly once per
non-empty run and released exactly once, unconditionally at run end (the
`finally` block runs on error paths too); the mail-transport connection is
acquired once per attempted send — so once per employee, not once per run —
and every acquisition is matched by a release by the `with` block. -/
theorem claim_C6_resources_amended :
    ∀ jobs : List Job, jobs ≠ [] →
      (runMain jobs).events.count Ev.dbAcquire = 1
      ∧ (runMain jobs).events.count Ev.dbRelease = 1
      ∧ (runMain jobs).events.getLast? = some Ev.dbRelease
      ∧ (runMain jobs).events.count Ev.smtpAcquire
          = (runMain jobs).events.count Ev.smtpRelease := by
  intro jobs hne
  simp only [runMain, if_neg hne]
  have hdb := runLoop_no_db_events jobs
    { csvFiles := [], xlsxFiles := [], combined := none } true
  have hsmtp := runLoop_smtp_balance jobs
    { csvFiles := [], xlsxFiles := [], combined := none } true
  refine ⟨?_, ?_, ?_, ?_⟩
  · simp [List.count_cons, List.count_append, List.count_eq_zero.mpr hdb.1]
  · simp [List.count_cons, List.count_append, List.count_eq_zero.mpr hdb.2]
  · rw [show ∀ l : List Ev, Ev.dbAcquire :: l ++ [Ev.dbRelease]
        = (Ev.dbAcquire :: l) ++ [Ev.dbRelease] from fun _ => rfl, List.getLast?_concat]
  · simp [List.count_cons, List.count_append, hsmtp]

theorem claim_C6_resources_amended_witness :
    (runMain [jobOkZero]).events.count Ev.dbAcquire = 1
    ∧ (runMain [jobOkZero]).events.count Ev.dbRelease = 1
    ∧ (runMain [jobOkZero]).events.getLast? = some Ev.dbRelease
    ∧ (runMain [jobOkZero]).events.count Ev.smtpAcquire
        = (runMain [jobOkZero]).events.count Ev.smtpRelease :=
  claim_C6_resources_amended [jobOkZero] (by decide)

end Offboarding
